import Mathlib

/-!
Verification of the job/crawl orchestration subsystem of a distributed
web-scraping service (TypeScript source, Firestore-backed state), as a shallow
embedding in Lean 4.

Conventions of the embedding:
* Firestore collections are association lists `List (String × α)` keyed by
  document id; `setDoc` is a document write (create-or-overwrite, as
  Firestore's `set`), `List.lookup` is a document read.
* Asynchronous store operations are modelled as pure state transformers;
  an operation whose only failure mode is a missing document returns
  `Option` (Firestore `update()` throws NOT_FOUND on a missing document).
* `JSON.stringify` is modelled by `stringify` below, including JSON string
  escaping; JavaScript `string.length` on ASCII data coincides with the
  character count used here.
* Timestamps (`createdAt`, `updatedAt`, `endTime`, TTL fields) are not
  modelled; no verified property depends on them.
-/

namespace Firecrawl

/-- Model of a JSON value, used for result payloads whose serialized size the
source inspects (`JSON.stringify(...).length`). Numbers are restricted to the
naturals actually produced by the code (sizes and lengths). -/
inductive Json where
  | null : Json
  | bool (b : Bool) : Json
  | num (n : Nat) : Json
  | str (s : String) : Json
  | arr (elems : List Json) : Json
  | obj (fields : List (String × Json)) : Json
  deriving Repr

/-- Hexadecimal rendering of a natural, as JavaScript `toString(16)`. -/
def hexString (n : Nat) : String :=
  String.mk (Nat.toDigits 16 n)

/-- Four-hex-digit rendering used by JSON `\uXXXX` escapes. -/
def hex4 (n : Nat) : String :=
  String.mk (List.replicate (4 - (Nat.toDigits 16 n).length) '0' ++ Nat.toDigits 16 n)

/-- JSON string escaping of one character, as `JSON.stringify` performs it. -/
def escapeChar (c : Char) : String :=
  if c = '"' then "\\\""
  else if c = '\\' then "\\\\"
  else if c = '\n' then "\\n"
  else if c = '\r' then "\\r"
  else if c = '\t' then "\\t"
  else if c = '\x08' then "\\b"
  else if c = '\x0c' then "\\f"
  else if c.toNat < 32 then "\\u" ++ hex4 c.toNat
  else String.mk [c]

/-- JSON string escaping over a character list. -/
def escapeList : List Char → String
  | [] => ""
  | c :: rest => escapeChar c ++ escapeList rest

/-- JSON string escaping of a string. -/
def escapeString (s : String) : String :=
  escapeList s.data

mutual

/-- `JSON.stringify` on the `Json` model. -/
def stringify : Json → String
  | .null => "null"
  | .bool true => "true"
  | .bool false => "false"
  | .num n => toString n
  | .str s => "\"" ++ escapeString s ++ "\""
  | .arr elems => "[" ++ stringifyElems elems ++ "]"
  | .obj fields => "\x7b" ++ stringifyFields fields ++ "\x7d"

/-- Comma-joined serialization of array elements. -/
def stringifyElems : List Json → String
  | [] => ""
  | [x] => stringify x
  | x :: y :: rest => stringify x ++ "," ++ stringifyElems (y :: rest)

/-- Comma-joined serialization of object fields. -/
def stringifyFields : List (String × Json) → String
  | [] => ""
  | [(k, v)] => "\"" ++ escapeString k ++ "\":" ++ stringify v
  | (k, v) :: f :: rest =>
      "\"" ++ escapeString k ++ "\":" ++ stringify v ++ "," ++ stringifyFields (f :: rest)

end

/-- JavaScript `s.substring(0, n)` (clamped take of the first `n` characters). -/
def jsSubstringTo (s : String) (n : Nat) : String :=
  String.mk (s.data.take n)

/-- Firestore `set` on a collection: create the document or overwrite it. -/
def setDoc {α : Type} : List (String × α) → String → α → List (String × α)
  | [], k, v => [(k, v)]
  | (k', v') :: rest, k, v =>
      if k' = k then (k, v) :: rest else (k', v') :: setDoc rest k v

/-!
## Completion results and their Firestore serialization
(`FirestoreStateManager.markJobCompleted`, firestore-state.ts)

A completion result is `{success, message?, docs?}`; each document is modelled
by the one field the truncation logic inspects, `content` (other document
fields are not read by the state manager and are omitted from the model).
`removeUndefinedValues` is implicit: absent optional fields are simply not
serialized, exactly as Firestore/`JSON.stringify` elide `undefined`.
-/

/-- A scraped document, restricted to the field the truncation logic reads. -/
structure ScrapeDoc where
  content : Option String
  deriving Repr

/-- A completion result (`QueueJobResult` with the `docs` payload). -/
structure JobResult where
  success : Bool
  message : Option String
  docs : Option (List ScrapeDoc)
  deriving Repr

/-- Serialization of one document. -/
def docToJson (d : ScrapeDoc) : Json :=
  .obj (match d.content with
    | some c => [("content", .str c)]
    | none => [])

/-- Serialization of a completion result, field order as constructed by the
worker (`{success, message, docs}`). -/
def resultToJson (r : JobResult) : Json :=
  .obj ([("success", .bool r.success)]
    ++ (match r.message with | some m => [("message", .str m)] | none => [])
    ++ (match r.docs with | some ds => [("docs", .arr (ds.map docToJson))] | none => []))

/-- Per-document content cap applied by the truncation path
(`const maxContentSize = 1000000`). -/
def maxContentSize : Nat := 1000000

/-- Marker appended to truncated content. -/
def truncationMarker : String := "... [TRUNCATED]"

/-- Safe threshold below the Firestore 1 MB document limit
(`if (resultStr.length > 990000)`). -/
def resultSizeThreshold : Nat := 990000

/-- The truncated shape of one document:
`{...doc, content: content.substring(0, maxContentSize) + marker?,
contentTruncated, originalContentLength}`. -/
def truncateDocJson (d : ScrapeDoc) : Json :=
  match d.content with
  | some c =>
      .obj [("content", .str (jsSubstringTo c maxContentSize ++
               (if maxContentSize < c.length then truncationMarker else ""))),
            ("contentTruncated", .bool (decide (maxContentSize < c.length))),
            ("originalContentLength", .num c.length)]
  | none => docToJson d

/-- The truncated result written when the serialized result exceeds the
threshold: `{success, message || default, truncated: true, originalSize,
docs: docs?.map(truncate)}`. -/
def truncatedResultJson (r : JobResult) (originalSize : Nat) : Json :=
  .obj ([("success", .bool r.success),
         ("message", .str (match r.message with
            | some m => if m = "" then "Result truncated due to size" else m
            | none => "Result truncated due to size")),
         ("truncated", .bool true),
         ("originalSize", .num originalSize)]
    ++ (match r.docs with
        | some ds => [("docs", .arr (ds.map truncateDocJson))]
        | none => []))

/-- The result document `markJobCompleted` writes: the full result when its
serialization fits the threshold, the truncated shape otherwise. -/
def storedResultJson (r : JobResult) : Json :=
  let resultStr := stringify (resultToJson r)
  if resultSizeThreshold < resultStr.length then
    truncatedResultJson r resultStr.length
  else
    resultToJson r

/-- Concrete oversized scrape content: 1,200,000 ASCII characters. -/
def bigContent : String := String.mk (List.replicate 1200000 'a')

/-- A completion result whose serialization exceeds the 990,000-byte
threshold: a single document carrying `bigContent`. -/
def oversizedResult : JobResult :=
  { success := true, message := none, docs := some [{ content := some bigContent }] }

/-- The content stored for the oversized document by the truncation path. -/
def truncatedBigContent : String :=
  jsSubstringTo bigContent maxContentSize ++ truncationMarker

/-!
## Crawl state and its transitions
(`FirestoreStateManager` in firestore-state.ts and its extended variant in
cloud-tasks-adapter.ts)
-/

/-- A crawl document (`CrawlState`), restricted to the fields the verified
operations read or write (timestamps omitted). -/
structure CrawlState where
  id : String
  status : String
  totalUrls : Nat
  completedUrls : Nat
  failedUrls : Nat
  urls : List String
  completedJobs : List String
  failedJobs : List String
  deriving Repr, DecidableEq

/-- `createCrawl(crawlId, urls)`: a fresh pending crawl over the given URLs. -/
def createCrawl (crawlId : String) (urls : List String) : CrawlState :=
  { id := crawlId, status := "pending", totalUrls := urls.length,
    completedUrls := 0, failedUrls := 0, urls := urls,
    completedJobs := [], failedJobs := [] }

/-- `updateCrawlProgress(crawlId, jobId, success)` (the transactional body):
bump the matching counter and job list, and set `status = "completed"` when
the updated `completedUrls + failedUrls` equals `totalUrls`. -/
def updateCrawlProgress (c : CrawlState) (jobId : String) (success : Bool) : CrawlState :=
  let completedUrls := if success then c.completedUrls + 1 else c.completedUrls
  let failedUrls := if success then c.failedUrls else c.failedUrls + 1
  let completedJobs := if success then c.completedJobs ++ [jobId] else c.completedJobs
  let failedJobs := if success then c.failedJobs else c.failedJobs ++ [jobId]
  let c' := { c with completedUrls := completedUrls, failedUrls := failedUrls,
                     completedJobs := completedJobs, failedJobs := failedJobs }
  if completedUrls + failedUrls = c.totalUrls then
    { c' with status := "completed" }
  else
    c'

/-- `finishCrawl(id)`: unconditionally sets `status = "completed"` (and
`endTime`, not modelled). There is no check of the progress counters. -/
def finishCrawl (c : CrawlState) : CrawlState :=
  { c with status := "completed" }

/-- `addCrawlJobDone(id, jobId)`: `arrayUnion(jobId)` on `completedJobs` and
`increment(1)` on `completedUrls`. -/
def addCrawlJobDone (c : CrawlState) (jobId : String) : CrawlState :=
  { c with
    completedJobs :=
      if jobId ∈ c.completedJobs then c.completedJobs else c.completedJobs ++ [jobId],
    completedUrls := c.completedUrls + 1 }

/-- `getDoneJobsOrdered(id, start, end)` on a crawl's `completedJobs` slice:
a negative `end` means "to the last element". -/
def getDoneJobsOrdered (c : CrawlState) (start : Nat) (stop : Int) : List String :=
  let actualEnd : Nat := if stop < 0 then c.completedJobs.length else stop.toNat
  (c.completedJobs.take actualEnd).drop start

/-!
## Job records and the job/crawl store
-/

/-- Job payload (`QueueJobData`), restricted to the fields the state manager
reads. -/
structure JobData where
  url : String
  team_id : Option String
  crawl_id : Option String
  deriving Repr, DecidableEq

/-- A job document (`JobState`). The minimal placeholder written by
`markJobCompleted`/`markJobFailed` for a missing job has no `name`/`data`,
hence those fields are optional. -/
structure JobRecord where
  id : String
  name : Option String
  data : Option JobData
  status : String
  progress : Option Nat
  result : Option Json
  error : Option String
  deriving Repr

/-- The durable store: the `jobs` and `crawls` collections. -/
structure StoreState where
  jobs : List (String × JobRecord)
  crawls : List (String × CrawlState)
  deriving Repr

/-- `createJob(jobId, name, data, options)`: substitute the "system" team for
a missing (or empty, i.e. falsy) `team_id`, and `set` a fresh record with
`status = "waiting"`, `progress = 0`. `set` creates or overwrites. -/
def createJob (st : StoreState) (jobId name : String) (data : JobData) : StoreState :=
  let teamId := match data.team_id with
    | none => "system"
    | some t => if t = "" then "system" else t
  let jobState : JobRecord :=
    { id := jobId, name := some name, data := some { data with team_id := some teamId },
      status := "waiting", progress := some 0, result := none, error := none }
  { st with jobs := setDoc st.jobs jobId jobState }

/-- `markJobStarted(jobId)`: `update({status: 'active'})`; Firestore `update`
throws NOT_FOUND on a missing document, modelled as `none`. -/
def markJobStarted (st : StoreState) (jobId : String) : Option StoreState :=
  match st.jobs.lookup jobId with
  | none => none
  | some job =>
      some { st with jobs := setDoc st.jobs jobId ({ job with status := "active" }) }

/-- The minimal placeholder record `markJobCompleted`/`markJobFailed` writes
when the job document is missing. -/
def placeholderJob (jobId : String) : JobRecord :=
  { id := jobId, name := none, data := none, status := "created",
    progress := none, result := none, error := none }

/-- `markJobCompleted(jobId, result)`: create a placeholder if the job is
missing; set `status = "completed"`, `progress = 100` and the (possibly
truncated) result; then, when the job existed and carries a `crawl_id`,
run `updateCrawlProgress(crawl_id, jobId, true)` (its NOT_FOUND error on a
missing crawl is caught and logged, leaving the crawl collection unchanged).
The source performs the status and result writes as two consecutive updates
on the same document; the model merges them into one record update. -/
def markJobCompleted (st : StoreState) (jobId : String) (result : JobResult) : StoreState :=
  let jobDoc := st.jobs.lookup jobId
  let st₁ := match jobDoc with
    | none => { st with jobs := setDoc st.jobs jobId (placeholderJob jobId) }
    | some _ => st
  let st₂ := match st₁.jobs.lookup jobId with
    | none => st₁
    | some job =>
        let job' : JobRecord := { job with status := "completed", progress := some 100,
                                           result := some (storedResultJson result) }
        { st₁ with jobs := setDoc st₁.jobs jobId job' }
  match jobDoc with
  | some job =>
      match job.data with
      | some d =>
          match d.crawl_id with
          | some cid =>
              (match st₂.crawls.lookup cid with
               | some c =>
                   { st₂ with crawls := setDoc st₂.crawls cid (updateCrawlProgress c jobId true) }
               | none => st₂)
          | none => st₂
      | none => st₂
  | none => st₂

/-- `markJobFailed(jobId, error)`: the failure analogue of
`markJobCompleted`, storing `error.message`. -/
def markJobFailed (st : StoreState) (jobId : String) (errMsg : String) : StoreState :=
  let jobDoc := st.jobs.lookup jobId
  let st₁ := match jobDoc with
    | none => { st with jobs := setDoc st.jobs jobId (placeholderJob jobId) }
    | some _ => st
  let st₂ := match st₁.jobs.lookup jobId with
    | none => st₁
    | some job =>
        let job' : JobRecord := { job with status := "failed", error := some errMsg }
        { st₁ with jobs := setDoc st₁.jobs jobId job' }
  match jobDoc with
  | some job =>
      match job.data with
      | some d =>
          match d.crawl_id with
          | some cid =>
              (match st₂.crawls.lookup cid with
               | some c =>
                   { st₂ with crawls := setDoc st₂.crawls cid (updateCrawlProgress c jobId false) }
               | none => st₂)
          | none => st₂
      | none => st₂
  | none => st₂

/-- `isCrawlFinished(id)`: a missing crawl document is reported as finished
(`return true`); otherwise `totalUrls > 0 && completed + failed >= totalUrls`. -/
def isCrawlFinished (st : StoreState) (id : String) : Bool :=
  match st.crawls.lookup id with
  | none => true
  | some c => decide (0 < c.totalUrls) && decide (c.totalUrls ≤ c.completedUrls + c.failedUrls)

/-!
## The Cloud Tasks worker endpoint (`POST /tasks/process`, task-worker.ts)
-/

/-- Observable outcome of one `/tasks/process` delivery. -/
structure HandlerOutcome where
  ranScrape : Bool
  statusAfterStart : Option String
  responseSuccess : Bool
  deriving Repr, DecidableEq

/-- The `/tasks/process` handler, for a delivery of job `jobId` whose scrape
pipeline yields `scrape`. Control flow translated from the source:
`markJobStarted` (with its NOT_FOUND recovery: re-create the job, retry);
then the scrape pipeline runs unconditionally — the handler performs no job
status read before scraping; then `markJobCompleted` on success or
`markJobFailed(new Error(result.message || 'Job failed'))` on failure. The
endpoint replies 200 either way. `ranScrape` records that the pipeline was
invoked; `statusAfterStart` is the job's stored status right after
`markJobStarted`. -/
def processTask (st : StoreState) (jobId name : String) (data : JobData)
    (scrape : JobResult) : StoreState × HandlerOutcome :=
  let st₁ := match markJobStarted st jobId with
    | some st' => st'
    | none =>
        match markJobStarted (createJob st jobId name data) jobId with
        | some st' => st'
        | none => st
  let statusAfterStart := (st₁.jobs.lookup jobId).map JobRecord.status
  if scrape.success then
    (markJobCompleted st₁ jobId scrape,
     { ranScrape := true, statusAfterStart := statusAfterStart, responseSuccess := true })
  else
    let errMsg := match scrape.message with
      | some m => if m = "" then "Job failed" else m
      | none => "Job failed"
    (markJobFailed st₁ jobId errMsg,
     { ranScrape := true, statusAfterStart := statusAfterStart, responseSuccess := false })

/-!
## Concrete scenario inputs for the store operations
-/

/-- A reachable mid-crawl state: a crawl of two URLs whose first child job
has been recorded done (`createCrawl`, then `addCrawlJobDone`). -/
def midCrawl : CrawlState :=
  addCrawlJobDone
    (createCrawl "crawl-1" ["https://a.example/", "https://a.example/page"]) "job-1"

/-- An existing, already-completed job record. -/
def existingCompletedJob : JobRecord :=
  { id := "job-1", name := some "scrape",
    data := some { url := "https://example.com", team_id := some "t1", crawl_id := none },
    status := "completed", progress := some 100, result := some Json.null, error := none }

/-- A store already holding `existingCompletedJob` under id `"job-1"`. -/
def conflictStore : StoreState :=
  { jobs := [("job-1", existingCompletedJob)], crawls := [] }

/-- A terminal (completed) job record used for the re-delivery scenario. -/
def terminalJobRecord : JobRecord :=
  { id := "job-9", name := some "scrape",
    data := some { url := "https://example.com", team_id := some "t1", crawl_id := none },
    status := "completed", progress := some 100, result := some Json.null, error := none }

/-- A store in which job `"job-9"` is already completed. -/
def terminalStore : StoreState :=
  { jobs := [("job-9", terminalJobRecord)], crawls := [] }

/-- The handler run on a second delivery of the completed job `"job-9"`. -/
def secondDelivery : StoreState × HandlerOutcome :=
  processTask terminalStore "job-9" "scrape"
    { url := "https://example.com", team_id := some "t1", crawl_id := none }
    { success := true, message := none, docs := some [] }

/-!
## URL locking (`FirestoreStateManager.lockURL`, cloud-tasks-adapter.ts)
-/

/-- Truncation of an integer to a signed 32-bit value (the JavaScript
`hash & hash` coercion). -/
def toInt32 (n : Int) : Int :=
  let m := n % 4294967296
  if m < 2147483648 then m else m - 4294967296

/-- One step of the URL hash:
`hash = ((hash << 5) - hash) + charCode; hash = hash & hash`. -/
def hashStep (hash : Int) (c : Char) : Int :=
  toInt32 (toInt32 (hash * 32) - hash + c.toNat)

/-- `hashUrl(url)`: the deterministic lock-document id,
`"url_" + Math.abs(hash).toString(16)`. -/
def hashUrl (url : String) : String :=
  "url_" ++ hexString (url.data.foldl hashStep 0).natAbs

/-- A URL lock document (`{url, crawlId}`; timestamps not modelled). -/
structure LockEntry where
  url : String
  crawlId : String
  deriving Repr, DecidableEq

/-- `lockURL(url, crawlId)` run sequentially: read the lock document; if it
exists return `false`, otherwise `set` it and return `true`. The read and the
write are two separate, non-transactional Firestore operations; `lockStep`
below exposes them as two atomic steps for the interleaved semantics. -/
def lockURL (store : List (String × LockEntry)) (url crawlId : String) :
    Bool × List (String × LockEntry) :=
  if (store.lookup (hashUrl url)).isSome then
    (false, store)
  else
    (true, setDoc store (hashUrl url) { url := url, crawlId := crawlId })

/-- Program counter of one in-flight `lockURL` call. -/
inductive LockPC where
  | atRead : LockPC
  | atWrite : LockPC
  | returned (res : Bool) : LockPC
  deriving Repr, DecidableEq

/-- One atomic step of an in-flight `lockURL(url, crawlId)` call: the read
observes the document and branches; the write `set`s the document (a plain
`set`, not a create-if-absent precondition). -/
def lockStep (store : List (String × LockEntry)) (pc : LockPC) (url crawlId : String) :
    List (String × LockEntry) × LockPC :=
  match pc with
  | .atRead =>
      if (store.lookup (hashUrl url)).isSome then (store, .returned false)
      else (store, .atWrite)
  | .atWrite =>
      (setDoc store (hashUrl url) { url := url, crawlId := crawlId }, .returned true)
  | .returned r => (store, .returned r)

/-- Two concurrent `lockURL` callers A and B on the same `(url, crawlId)`. -/
structure RaceState where
  store : List (String × LockEntry)
  pcA : LockPC
  pcB : LockPC
  deriving Repr, DecidableEq

/-- Run a schedule: each entry picks which caller takes the next atomic step
(`false` = A, `true` = B). -/
def runRace (url crawlId : String) : List Bool → RaceState → RaceState
  | [], s => s
  | isB :: rest, s =>
      if isB then
        let next := lockStep s.store s.pcB url crawlId
        runRace url crawlId rest { s with store := next.1, pcB := next.2 }
      else
        let next := lockStep s.store s.pcA url crawlId
        runRace url crawlId rest { s with store := next.1, pcA := next.2 }

/-- Fan-out enqueue count (`processCrawlLinks`): one scrape job is enqueued
for a URL exactly when the `lockURL` call for it returned `true`. -/
def fanOutCount (resA resB : Bool) : Nat :=
  (if resA then 1 else 0) + (if resB then 1 else 0)

/-- The read-read-write-write interleaving of two concurrent callers,
starting from an empty lock store. -/
def tornRace : RaceState :=
  runRace "https://a.example/page" "crawl-1" [false, true, false, true]
    { store := [], pcA := .atRead, pcB := .atRead }

/-!
## Rate limiter (`getRateLimiter`, rate-limiter.ts)
-/

/-- The modes indexing the `RATE_LIMITS` table. -/
inductive RateLimiterMode where
  | crawl | scrape | search | map | preview | account | crawlStatus | testSuite
  deriving Repr, DecidableEq

/-- The `RATE_LIMITS` configuration table, one row per mode. -/
def RATE_LIMITS (mode : RateLimiterMode) : List (String × Nat) :=
  match mode with
  | .crawl =>
      [("default", 3), ("free", 2), ("starter", 10), ("standard", 5),
       ("standardOld", 40), ("scale", 50), ("hobby", 3), ("standardNew", 10),
       ("standardnew", 10), ("growth", 50), ("growthdouble", 50)]
  | .scrape =>
      [("default", 20), ("free", 10), ("starter", 100), ("standard", 100),
       ("standardOld", 100), ("scale", 500), ("hobby", 20), ("standardNew", 100),
       ("standardnew", 100), ("growth", 1000), ("growthdouble", 1000)]
  | .search =>
      [("default", 20), ("free", 5), ("starter", 50), ("standard", 50),
       ("standardOld", 40), ("scale", 500), ("hobby", 10), ("standardNew", 50),
       ("standardnew", 50), ("growth", 500), ("growthdouble", 500)]
  | .map =>
      [("default", 20), ("free", 5), ("starter", 50), ("standard", 50),
       ("standardOld", 50), ("scale", 500), ("hobby", 10), ("standardNew", 50),
       ("standardnew", 50), ("growth", 500), ("growthdouble", 500)]
  | .preview => [("free", 5), ("default", 5)]
  | .account => [("free", 100), ("default", 100)]
  | .crawlStatus => [("free", 150), ("default", 250)]
  | .testSuite => [("free", 10000), ("default", 10000)]

/-- The `default` entry of a mode's row. -/
def rateDefault (mode : RateLimiterMode) : Nat :=
  ((RATE_LIMITS mode).lookup "default").getD 0

/-- The string name of a mode, used in the bucket key `mode-planKey`. -/
def modeName : RateLimiterMode → String
  | .crawl => "crawl"
  | .scrape => "scrape"
  | .search => "search"
  | .map => "map"
  | .preview => "preview"
  | .account => "account"
  | .crawlStatus => "crawlStatus"
  | .testSuite => "testSuite"

/-- A fixed-window token bucket (`RateLimiterRedis` configuration): key,
points per window, 60-second window. -/
structure Bucket where
  key : String
  points : Nat
  duration : Nat
  deriving Repr, DecidableEq

/-- `createRateLimiter(keyPrefix, points)`: a 60-second bucket. -/
def createRateLimiter (key : String) (points : Nat) : Bucket :=
  { key := key, points := points, duration := 60 }

def testSuiteRateLimiter : Bucket := createRateLimiter "test-suite" 10000

def devBRateLimiter : Bucket := createRateLimiter "dev-b" 1200

def manualRateLimiter : Bucket := createRateLimiter "manual" 2000

def serverRateLimiter : Bucket := createRateLimiter "server" 100

/-- The fixed test-suite token substrings. -/
def testSuiteTokens : List String :=
  ["a01ccae", "6254cf9", "0f96e673", "23befa1b", "69141c4"]

/-- The manual override team ids. -/
def manual : List String := ["69be9e74-7624-4990-b20d-08e0acc70cf6"]

/-- JavaScript `hay.includes(needle)`: substring containment. -/
def containsSub (hay needle : List Char) : Bool :=
  match hay with
  | [] => needle.isEmpty
  | _ :: t => needle.isPrefixOf hay || containsSub t needle

/-- JavaScript `plan.replace("-", "")`: remove only the FIRST occurrence of
`-` (the string form of `replace` substitutes a single occurrence). -/
def removeFirstDash : List Char → List Char
  | [] => []
  | c :: rest => if c = '-' then rest else c :: removeFirstDash rest

/-- The first override check:
`testSuiteTokens.some(testToken => token.includes(testToken))`. -/
def isTestSuiteToken (token : String) : Bool :=
  testSuiteTokens.any (fun t => containsSub token.data t.data)

/-- The second override check: `teamId && teamId === process.env.DEV_B_TEAM_ID`
(a falsy — missing or empty — teamId never matches; `devBTeamId` stands for
the environment value). -/
def isDevBTeam (teamId devBTeamId : Option String) : Bool :=
  match teamId, devBTeamId with
  | some t, some d => t ≠ "" && t = d
  | _, _ => false

/-- The third override check: `teamId && manual.includes(teamId)`. -/
def isManualTeam (teamId : Option String) : Bool :=
  match teamId with
  | some t => t ≠ "" && manual.contains t
  | none => false

/-- `plan ? plan.replace("-", "") : "default"`: the plan key used for the
table lookup (a falsy — missing or empty — plan falls back to `"default"`). -/
def planKeyOf (plan : Option String) : String :=
  match plan with
  | some p => if p = "" then "default" else String.mk (removeFirstDash p.data)
  | none => "default"

/-- `getRateLimiter(mode, token, plan?, teamId?)`. Overrides in source order:
test-suite token substring, then the dev-B team, then the manual team set;
otherwise the table lookup `rateLimitConfig[planKey] ||
rateLimitConfig.default` (the JavaScript `||` falls through on the falsy 0;
the final `|| rateLimitConfig` object fallback is unreachable because every
row has a nonzero `default` and is not modelled). The missing-row guard
(`if (!rateLimitConfig) return serverRateLimiter`) cannot fire for the modes
of the table. -/
def getRateLimiter (mode : RateLimiterMode) (token : String) (plan : Option String)
    (teamId : Option String) (devBTeamId : Option String) : Bucket :=
  if isTestSuiteToken token then
    testSuiteRateLimiter
  else if isDevBTeam teamId devBTeamId then
    devBRateLimiter
  else if isManualTeam teamId then
    manualRateLimiter
  else
    let planKey := planKeyOf plan
    let points := match (RATE_LIMITS mode).lookup planKey with
      | some v => if v = 0 then rateDefault mode else v
      | none => rateDefault mode
    createRateLimiter (modeName mode ++ "-" ++ planKey) points

/-- The plan key the CLAIM prescribes: every `-` character removed. -/
def specPlanKeyAllDashesRemoved (p : String) : String :=
  String.mk (p.data.filter (fun c => !(c = '-')))

/-!
## Priority engine (`getJobPriority`, job-priority module)
-/

/-- `getJobPriority({plan, team_id, basePriority = 10})`. The team's active
job count (`getTeamJobCount`) is passed in as `jobCount`; the catch-all error
path returning `basePriority` on a store failure is outside this pure model. -/
def getJobPriority (plan : String) (team_id : Option String)
    (jobCount basePriority : Nat) : Nat :=
  let safeTeamId := match team_id with
    | none => "system"
    | some t => if t = "" then "system" else t
  let priority :=
    if plan = "free" then
      if 10 < jobCount then 15
      else if 5 < jobCount then 12
      else basePriority
    else if plan = "starter" ∨ plan = "hobby" then
      if 20 < jobCount then 12
      else if 10 < jobCount then 10
      else 8
    else if plan = "standard" ∨ plan = "standardnew" then
      if 30 < jobCount then 8
      else if 15 < jobCount then 6
      else 5
    else if plan = "scale" ∨ plan = "growth" ∨ plan = "growthdouble" then
      if 50 < jobCount then 5
      else if 25 < jobCount then 3
      else 2
    else basePriority
  if safeTeamId = "system" then 1 else priority

/-!
## Crawl status byte-budget read path (`crawlStatusController`, crawl-status.ts)

When the status request carries no explicit end index, the controller chunks
the completed-job ids by 100, fetches each chunk, and pushes jobs while the
cumulative serialized size of their converted results is below a 10 MiB
budget; if the counter ran strictly over the budget, the last pushed element
is spliced off. Each job is represented here by the one attribute the loop
inspects: `JSON.stringify(legacyDocumentConverter(job.returnvalue)).length`.
-/

/-- The 10 MiB response budget (`const bytesLimit = 10485760`). -/
def bytesLimit : Nat := 10485760

/-- The id-chunking factor (`const factor = 100`). -/
def factor : Nat := 100

/-- The inner loop over the jobs of one fetched chunk: while
`bytes < bytesLimit`, push the job and add its serialized size to the
counter. Returns the pushed sizes and the updated counter. -/
def pushChunk : List Nat → Nat → List Nat × Nat
  | [], bytes => ([], bytes)
  | sz :: rest, bytes =>
      if bytes < bytesLimit then
        let r := pushChunk rest (bytes + sz)
        (sz :: r.1, r.2)
      else
        ([], bytes)

/-- The outer loop: process the remaining ids a chunk of `factor` at a time,
while ids remain and the counter is below the budget. -/
def collectChunks (sizes : List Nat) (bytes : Nat) : List Nat × Nat :=
  match sizes with
  | [] => ([], bytes)
  | s :: rest' =>
      if bytes < bytesLimit then
        let r := pushChunk ((s :: rest').take factor) bytes
        let rest := collectChunks ((s :: rest').drop factor) r.2
        (r.1 ++ rest.1, rest.2)
      else ([], bytes)
termination_by sizes.length
decreasing_by
  simp [List.length_drop, factor]
  omega

/-- The full selection: run the chunked loop from a zero counter, then, if
the counter ran strictly over the budget, splice off the last pushed element
(`doneJobs.splice(doneJobs.length - 1, 1)`). -/
def selectDoneJobs (sizes : List Nat) : List Nat :=
  let r := collectChunks sizes 0
  if bytesLimit < r.2 then r.1.dropLast else r.1

/-!
## Theorems
-/

theorem lookup_setDoc {α : Type} (docs : List (String × α)) (k : String) (v : α) :
    (setDoc docs k v).lookup k = some v := by
  induction docs with
  | nil => simp [setDoc, List.lookup]
  | cons hd tl ih =>
      obtain ⟨k', v'⟩ := hd
      by_cases h : k' = k
      · subst h
        simp [setDoc, List.lookup]
      · have hne : (k == k') = false := beq_eq_false_iff_ne.mpr (fun hh => h hh.symm)
        simp [setDoc, if_neg h, List.lookup, hne, ih]

theorem lookup_setDoc_ne {α : Type} (docs : List (String × α)) (k k' : String) (v : α)
    (h : k' ≠ k) : (setDoc docs k v).lookup k' = docs.lookup k' := by
  induction docs with
  | nil =>
      have hne : (k' == k) = false := beq_eq_false_iff_ne.mpr h
      simp [setDoc, List.lookup, hne]
  | cons hd tl ih =>
      obtain ⟨k₀, v₀⟩ := hd
      by_cases hk : k₀ = k
      · subst hk
        have hne : (k' == k₀) = false := beq_eq_false_iff_ne.mpr h
        simp [setDoc, List.lookup, hne]
      · simp only [setDoc, if_neg hk, List.lookup]
        cases hbk : (k' == k₀) <;> simp [hbk, ih]

theorem escapeList_append (l₁ l₂ : List Char) :
    escapeList (l₁ ++ l₂) = escapeList l₁ ++ escapeList l₂ := by
  induction l₁ with
  | nil => simp [escapeList]
  | cons c t ih => simp [escapeList, ih, String.append_assoc]

theorem escapeChar_a : escapeChar 'a' = "a" := by decide

theorem length_escapeList_replicate_a (n : Nat) :
    (escapeList (List.replicate n 'a')).length = n := by
  induction n with
  | zero => rfl
  | succ m ih =>
      have ha : ("a" : String).length = 1 := rfl
      simp only [List.replicate_succ, escapeList, escapeChar_a, String.length_append, ih, ha]
      omega

theorem length_stringify_str (s : String) :
    (stringify (.str s)).length = (escapeList s.data).length + 2 := by
  have hq : ("\"" : String).length = 1 := rfl
  simp only [stringify, escapeString, String.length_append, hq]
  omega

theorem length_le_stringifyElems {x : Json} {xs : List Json} (h : x ∈ xs) :
    (stringify x).length ≤ (stringifyElems xs).length := by
  induction xs with
  | nil => cases h
  | cons a t ih =>
      cases t with
      | nil =>
          rcases List.mem_singleton.mp h with rfl
          simp [stringifyElems]
      | cons b t₂ =>
          rcases List.mem_cons.mp h with rfl | hmem
          · simp only [stringifyElems, String.length_append]
            omega
          · calc (stringify x).length ≤ (stringifyElems (b :: t₂)).length := ih hmem
              _ ≤ (stringifyElems (a :: b :: t₂)).length := by
                  simp only [stringifyElems, String.length_append]
                  omega

theorem length_le_stringifyFields {k : String} {v : Json} {kvs : List (String × Json)}
    (h : (k, v) ∈ kvs) :
    (stringify v).length ≤ (stringifyFields kvs).length := by
  induction kvs with
  | nil => cases h
  | cons a t ih =>
      obtain ⟨k₀, v₀⟩ := a
      cases t with
      | nil =>
          rcases List.mem_singleton.mp h with h'
          obtain ⟨rfl, rfl⟩ := Prod.mk.injEq .. ▸ h'
          simp only [stringifyFields, String.length_append]
          omega
      | cons b t₂ =>
          rcases List.mem_cons.mp h with h' | hmem
          · obtain ⟨rfl, rfl⟩ := Prod.mk.injEq .. ▸ h'
            simp only [stringifyFields, String.length_append]
            omega
          · calc (stringify v).length ≤ (stringifyFields (b :: t₂)).length := ih hmem
              _ ≤ (stringifyFields ((k₀, v₀) :: b :: t₂)).length := by
                  simp only [stringifyFields, String.length_append]
                  omega

theorem length_le_stringify_arr {x : Json} {xs : List Json} (h : x ∈ xs) :
    (stringify x).length ≤ (stringify (.arr xs)).length := by
  calc (stringify x).length ≤ (stringifyElems xs).length := length_le_stringifyElems h
    _ ≤ (stringify (.arr xs)).length := by
        simp only [stringify, String.length_append]
        omega

theorem length_le_stringify_obj {k : String} {v : Json} {kvs : List (String × Json)}
    (h : (k, v) ∈ kvs) :
    (stringify v).length ≤ (stringify (.obj kvs)).length := by
  calc (stringify v).length ≤ (stringifyFields kvs).length := length_le_stringifyFields h
    _ ≤ (stringify (.obj kvs)).length := by
        simp only [stringify, String.length_append]
        omega

theorem bigContent_length : bigContent.length = 1200000 := by
  show (List.replicate 1200000 'a').length = 1200000
  rw [List.length_replicate]

theorem escapeList_bigContent :
    (escapeList bigContent.data).length = 1200000 := by
  show (escapeList (List.replicate 1200000 'a')).length = 1200000
  exact length_escapeList_replicate_a 1200000

theorem resultToJson_oversized :
    resultToJson oversizedResult
      = .obj [("success", .bool true),
              ("docs", .arr [.obj [("content", .str bigContent)]])] := rfl

theorem oversized_over_threshold :
    resultSizeThreshold < (stringify (resultToJson oversizedResult)).length := by
  have l4 : (stringify (Json.str bigContent)).length = 1200002 := by
    rw [length_stringify_str, escapeList_bigContent]
  have hm3 : (("content" : String), Json.str bigContent)
      ∈ [(("content" : String), Json.str bigContent)] := by simp
  have l3 : (stringify (Json.str bigContent)).length
      ≤ (stringify (Json.obj [("content", Json.str bigContent)])).length :=
    length_le_stringify_obj hm3
  have l2 : (stringify (Json.obj [("content", Json.str bigContent)])).length
      ≤ (stringify (Json.arr [Json.obj [("content", Json.str bigContent)]])).length :=
    length_le_stringify_arr (by simp)
  have hm1 : (("docs" : String), Json.arr [Json.obj [("content", Json.str bigContent)]])
      ∈ [(("success" : String), Json.bool true),
         (("docs" : String), Json.arr [Json.obj [("content", Json.str bigContent)]])] := by
    simp
  have l1 : (stringify (Json.arr [Json.obj [("content", Json.str bigContent)]])).length
      ≤ (stringify (resultToJson oversizedResult)).length := by
    rw [resultToJson_oversized]
    exact length_le_stringify_obj hm1
  simp only [resultSizeThreshold]
  omega

theorem truncateDocJson_oversized :
    truncateDocJson { content := some bigContent }
      = .obj [("content", .str truncatedBigContent),
              ("contentTruncated", .bool true),
              ("originalContentLength", .num bigContent.length)] := by
  have hlt : maxContentSize < bigContent.length := by
    rw [bigContent_length]
    norm_num [maxContentSize]
  simp only [truncateDocJson, truncatedBigContent, if_pos hlt, decide_eq_true hlt]

theorem escapeList_truncatedBigContent :
    1000000 ≤ (escapeList truncatedBigContent.data).length := by
  have h_take : bigContent.data.take maxContentSize = List.replicate 1000000 'a' := by
    show (List.replicate 1200000 'a').take 1000000 = List.replicate 1000000 'a'
    rw [List.take_replicate]
    have hmin : min 1000000 1200000 = 1000000 := by norm_num
    rw [hmin]
  have h_data : truncatedBigContent.data
      = List.replicate 1000000 'a' ++ truncationMarker.data := by
    show (String.mk (bigContent.data.take maxContentSize) ++ truncationMarker).data
      = List.replicate 1000000 'a' ++ truncationMarker.data
    rw [show (String.mk (bigContent.data.take maxContentSize) ++ truncationMarker).data
          = bigContent.data.take maxContentSize ++ truncationMarker.data from rfl, h_take]
  rw [h_data, escapeList_append, String.length_append,
    length_escapeList_replicate_a]
  omega

/-- Claim C3 (code bug, evaluated at the failing input): on a completion
result whose serialization exceeds the 990,000-byte budget, the truncation
path of `markJobCompleted` caps each document's content at 1,000,000
characters — above the budget itself — so the stored "truncated" result
document still exceeds the budget, contradicting the claimed guarantee that
the stored document is strictly smaller than the budget. -/
theorem C3_truncated_result_still_exceeds_budget :
    resultSizeThreshold < (stringify (resultToJson oversizedResult)).length ∧
    resultSizeThreshold < (stringify (storedResultJson oversizedResult)).length := by
  refine ⟨oversized_over_threshold, ?_⟩
  have h_stored : storedResultJson oversizedResult
      = truncatedResultJson oversizedResult
          (stringify (resultToJson oversizedResult)).length := by
    simp only [storedResultJson]
    rw [if_pos oversized_over_threshold]
  have h_shape : truncatedResultJson oversizedResult
        (stringify (resultToJson oversizedResult)).length
      = .obj [("success", .bool true),
              ("message", .str "Result truncated due to size"),
              ("truncated", .bool true),
              ("originalSize", .num (stringify (resultToJson oversizedResult)).length),
              ("docs", .arr [truncateDocJson { content := some bigContent }])] := rfl
  have l4 : 1000002 ≤ (stringify (Json.str truncatedBigContent)).length := by
    rw [length_stringify_str]
    have := escapeList_truncatedBigContent
    omega
  have hm3 : (("content" : String), Json.str truncatedBigContent)
      ∈ [(("content" : String), Json.str truncatedBigContent),
         (("contentTruncated" : String), Json.bool true),
         (("originalContentLength" : String), Json.num bigContent.length)] := by simp
  have l3 : (stringify (Json.str truncatedBigContent)).length
      ≤ (stringify (truncateDocJson { content := some bigContent })).length := by
    rw [truncateDocJson_oversized]
    exact length_le_stringify_obj hm3
  have l2 : (stringify (truncateDocJson { content := some bigContent })).length
      ≤ (stringify (Json.arr [truncateDocJson { content := some bigContent }])).length :=
    length_le_stringify_arr (by simp)
  have hm1 : (("docs" : String), Json.arr [truncateDocJson { content := some bigContent }])
      ∈ [(("success" : String), Json.bool true),
         (("message" : String), Json.str "Result truncated due to size"),
         (("truncated" : String), Json.bool true),
         (("originalSize" : String), Json.num (stringify (resultToJson oversizedResult)).length),
         (("docs" : String), Json.arr [truncateDocJson { content := some bigContent }])] := by
    simp
  have l1 : (stringify (Json.arr [truncateDocJson { content := some bigContent }])).length
      ≤ (stringify (storedResultJson oversizedResult)).length := by
    rw [h_stored, h_shape]
    exact length_le_stringify_obj hm1
  simp only [resultSizeThreshold]
  omega

/-- Claim C1 (counterexample): `finishCrawl` marks the crawl `completed`
unconditionally — here while `completedUrls + failedUrls = 1 < 2 = totalUrls`
— so the claimed biconditional `status = completed ⇔ totalUrls > 0 ∧
completed + failed ≥ totalUrls` fails at this point of the lifecycle (the
worker calls `finishCrawl` after every crawl child job, so the state is
reached). -/
theorem C1_finishCrawl_completes_early :
    (finishCrawl midCrawl).status = "completed" ∧
    (finishCrawl midCrawl).completedUrls + (finishCrawl midCrawl).failedUrls
      < (finishCrawl midCrawl).totalUrls := by
  decide

/-- Claim C1 (amended): the transactional `updateCrawlProgress` alone
respects the completion rule — it increments exactly one counter and sets
`status = "completed"` precisely when the updated `completedUrls +
failedUrls` equals `totalUrls` (or the status already was `completed`);
`finishCrawl`, by contrast, sets `completed` unconditionally. -/
theorem C1_updateCrawlProgress_invariant (c : CrawlState) (jobId : String) (success : Bool) :
    ((updateCrawlProgress c jobId success).status = "completed" ↔
      (c.completedUrls + c.failedUrls + 1 = c.totalUrls ∨ c.status = "completed")) ∧
    (updateCrawlProgress c jobId success).completedUrls
      + (updateCrawlProgress c jobId success).failedUrls
      = c.completedUrls + c.failedUrls + 1 ∧
    (updateCrawlProgress c jobId success).totalUrls = c.totalUrls := by
  cases success <;> simp [updateCrawlProgress] <;> split_ifs with h <;>
    refine ⟨?_, by simp <;> omega, rfl⟩
  · constructor
    · intro _
      exact Or.inl (by omega)
    · intro _
      rfl
  · constructor
    · intro hs
      exact Or.inr hs
    · rintro (h₁ | h₂)
      · exact absurd h₁ (by omega)
      · exact h₂
  · constructor
    · intro _
      exact Or.inl (by omega)
    · intro _
      rfl
  · constructor
    · intro hs
      exact Or.inr hs
    · rintro (h₁ | h₂)
      · exact absurd h₁ (by omega)
      · exact h₂

/-- Claim C4 (counterexample): `createJob` on an id that already exists does
not fail with a Conflict error and does not leave the record unchanged — the
previously `completed` record is silently overwritten by a fresh `waiting`
record. -/
theorem C4_createJob_overwrites :
    (conflictStore.jobs.lookup "job-1").map JobRecord.status = some "completed" ∧
    (((createJob conflictStore "job-1" "scrape"
        { url := "https://example.com", team_id := some "t1", crawl_id := none }).jobs.lookup
        "job-1").map JobRecord.status = some "waiting") := by
  exact ⟨rfl, rfl⟩

/-- Claim C4 (amended): `createJob` is an upsert — it always installs a fresh
record with `status = "waiting"` and no result under the given id,
overwriting any existing record; it never fails with Conflict. -/
theorem C4_createJob_upserts (st : StoreState) (jobId name : String) (data : JobData) :
    ((createJob st jobId name data).jobs.lookup jobId).map JobRecord.status
        = some "waiting" ∧
    ((createJob st jobId name data).jobs.lookup jobId).map JobRecord.result
        = some none := by
  simp [createJob, lookup_setDoc]

/-- Claim C5 (counterexample): a second delivery of a completed job is not
detected and dropped — the handler re-marks the job `active`, re-runs the
scrape, and overwrites the terminal record's result with the fresh scrape
result. -/
theorem C5_redelivery_not_dropped :
    secondDelivery.2.ranScrape = true ∧
    secondDelivery.2.statusAfterStart = some "active" ∧
    (secondDelivery.1.jobs.lookup "job-9").map JobRecord.result
      ≠ (terminalStore.jobs.lookup "job-9").map JobRecord.result := by
  refine ⟨rfl, rfl, ?_⟩
  have h₁ : (secondDelivery.1.jobs.lookup "job-9").map JobRecord.result
      = some (some (Json.obj [("success", Json.bool true), ("docs", Json.arr [])])) := rfl
  have h₂ : (terminalStore.jobs.lookup "job-9").map JobRecord.result
      = some (some Json.null) := rfl
  rw [h₁, h₂]
  simp

/-- Claim C5 (amended): the `/tasks/process` handler never gates on the
stored job status: for any existing job record — whatever its status,
terminal or not — a delivery marks the job `active` and runs the scrape
pipeline. -/
theorem C5_handler_always_scrapes (st : StoreState) (jobId name : String)
    (data : JobData) (scrape : JobResult) (job : JobRecord)
    (h : st.jobs.lookup jobId = some job) :
    (processTask st jobId name data scrape).2.ranScrape = true ∧
    (processTask st jobId name data scrape).2.statusAfterStart = some "active" := by
  cases hs : scrape.success <;>
    simp [processTask, markJobStarted, h, lookup_setDoc, hs]

theorem C5_handler_always_scrapes_witness :
    terminalStore.jobs.lookup "job-9" = some terminalJobRecord ∧
    (processTask terminalStore "job-9" "scrape"
        { url := "https://example.com", team_id := some "t1", crawl_id := none }
        { success := true, message := none, docs := some [] }).2.ranScrape = true ∧
    (processTask terminalStore "job-9" "scrape"
        { url := "https://example.com", team_id := some "t1", crawl_id := none }
        { success := true, message := none, docs := some [] }).2.statusAfterStart
      = some "active" :=
  ⟨rfl,
   (C5_handler_always_scrapes terminalStore "job-9" "scrape"
      { url := "https://example.com", team_id := some "t1", crawl_id := none }
      { success := true, message := none, docs := some [] } terminalJobRecord rfl).1,
   (C5_handler_always_scrapes terminalStore "job-9" "scrape"
      { url := "https://example.com", team_id := some "t1", crawl_id := none }
      { success := true, message := none, docs := some [] } terminalJobRecord rfl).2⟩

/-- Claim C10: for a crawl id with no crawl record in the store,
`isCrawlFinished` returns `true` — a missing (deleted, expired or
never-created) crawl is reported as finished rather than raising NotFound or
returning `false`. -/
theorem C10_missing_crawl_is_finished (st : StoreState) (id : String)
    (h : st.crawls.lookup id = none) : isCrawlFinished st id = true := by
  simp [isCrawlFinished, h]

theorem C10_missing_crawl_is_finished_witness :
    (StoreState.mk [] []).crawls.lookup "crawl-x" = none ∧
    isCrawlFinished (StoreState.mk [] []) "crawl-x" = true :=
  ⟨rfl, C10_missing_crawl_is_finished (StoreState.mk [] []) "crawl-x" rfl⟩

/-- Claim C2 (code bug, evaluated at the failing interleaving): `lockURL` is
a check-then-write without a transaction, so two concurrent callers that both
read before either writes BOTH return `true`, and two jobs are enqueued for
the same `(url, crawl_id)` — under the claimed atomic (transactional)
create-if-absent, exactly one caller would have returned `true`. -/
theorem C2_lockURL_race_double_enqueue :
    tornRace.pcA = .returned true ∧
    tornRace.pcB = .returned true ∧
    fanOutCount true true = 2 := by
  refine ⟨?_, ?_, rfl⟩ <;> rfl

/-- Claim C6 (counterexample): for the plan string `"growth--double"` (no
override applying), the claim's plan key strips every dash and hits the
`growthdouble` row (50 points for crawl), but the code strips only the first
dash, misses the table and returns the default of 3. -/
theorem C6_planKey_strips_only_first_dash :
    (getRateLimiter .crawl "tok" (some "growth--double") none none).points = 3 ∧
    specPlanKeyAllDashesRemoved "growth--double" = "growthdouble" ∧
    ((RATE_LIMITS .crawl).lookup "growthdouble").getD (rateDefault .crawl) = 50 ∧
    (3 : Nat) ≠ 50 := by
  refine ⟨rfl, rfl, rfl, by decide⟩

theorem lookup_eq_some_mem {β : Type} (l : List (String × β)) (k : String) (v : β)
    (h : l.lookup k = some v) : (k, v) ∈ l := by
  induction l with
  | nil => simp [List.lookup] at h
  | cons hd tl ih =>
      obtain ⟨k₀, v₀⟩ := hd
      simp only [List.lookup] at h
      cases hbk : (k == k₀) with
      | true =>
          rw [hbk] at h
          simp only [Option.some.injEq] at h
          subst h
          have hk : k = k₀ := beq_iff_eq.mp hbk
          subst hk
          exact List.mem_cons_self ..
      | false =>
          rw [hbk] at h
          exact List.mem_cons_of_mem _ (ih h)

theorem RATE_LIMITS_pos (mode : RateLimiterMode) :
    (RATE_LIMITS mode).all (fun p => decide (0 < p.2)) = true := by
  cases mode <;> decide

theorem RATE_LIMITS_lookup_ne_zero (mode : RateLimiterMode) (k : String) (v : Nat)
    (h : (RATE_LIMITS mode).lookup k = some v) : v ≠ 0 := by
  have hmem := lookup_eq_some_mem _ _ _ h
  have hall := RATE_LIMITS_pos mode
  rw [List.all_eq_true] at hall
  have := hall _ hmem
  simp only [decide_eq_true_eq] at this
  omega

/-- Claim C6 (amended): for every mode, plan and tenant to which no override
applies, `getRateLimiter` returns a 60-second bucket whose points equal
`RATE_LIMITS[mode][planKey] ?? RATE_LIMITS[mode].default`, where `planKey` is
the plan string with only its FIRST `-` character removed (an empty or
missing plan falls back to `"default"`); the overrides are checked before the
table lookup in the order test-suite token substring, configured dev-B
teamId, manual teamId set. -/
theorem C6_rate_bucket_lookup (mode : RateLimiterMode) (token : String)
    (plan : Option String) (teamId devBTeamId : Option String)
    (h₁ : isTestSuiteToken token = false)
    (h₂ : isDevBTeam teamId devBTeamId = false)
    (h₃ : isManualTeam teamId = false) :
    (getRateLimiter mode token plan teamId devBTeamId).duration = 60 ∧
    (getRateLimiter mode token plan teamId devBTeamId).points
      = ((RATE_LIMITS mode).lookup (planKeyOf plan)).getD (rateDefault mode) := by
  constructor
  · simp [getRateLimiter, h₁, h₂, h₃, createRateLimiter]
  · simp only [getRateLimiter, h₁, h₂, h₃, Bool.false_eq_true, if_false]
    cases hlk : (RATE_LIMITS mode).lookup (planKeyOf plan) with
    | none => simp [createRateLimiter, hlk]
    | some v =>
        have hv : v ≠ 0 := RATE_LIMITS_lookup_ne_zero mode _ v hlk
        simp [createRateLimiter, hlk, hv]

theorem C6_rate_bucket_lookup_witness :
    (getRateLimiter .crawl "tok" (some "standard-new") none none).duration = 60 ∧
    (getRateLimiter .crawl "tok" (some "standard-new") none none).points = 10 := by
  have h := C6_rate_bucket_lookup .crawl "tok" (some "standard-new") none none rfl rfl rfl
  refine ⟨h.1, ?_⟩
  rw [h.2]
  rfl

/-- Claim C7: the `system` team always gets priority 1 regardless of plan,
count and base priority (a missing team id defaults to `system`); every other
team gets the banded value of its plan — free (at the default base priority
of 10): 15/12/10 at thresholds 10/5; starter and hobby: 12/10/8 at 20/10;
standard and standardnew: 8/6/5 at 30/15; scale, growth and growthdouble:
5/3/2 at 50/25 — and in particular plan `standard` returns 6 at count 20 and
8 at count 31. -/
theorem C7_priority_bands (t : String) (h₀ : t ≠ "") (h₁ : t ≠ "system")
    (plan : String) (count base : Nat) :
    getJobPriority plan (some "system") count base = 1 ∧
    getJobPriority plan none count base = 1 ∧
    getJobPriority "free" (some t) count 10
      = (if 10 < count then 15 else if 5 < count then 12 else 10) ∧
    getJobPriority "starter" (some t) count base
      = (if 20 < count then 12 else if 10 < count then 10 else 8) ∧
    getJobPriority "hobby" (some t) count base
      = (if 20 < count then 12 else if 10 < count then 10 else 8) ∧
    getJobPriority "standard" (some t) count base
      = (if 30 < count then 8 else if 15 < count then 6 else 5) ∧
    getJobPriority "standardnew" (some t) count base
      = (if 30 < count then 8 else if 15 < count then 6 else 5) ∧
    getJobPriority "scale" (some t) count base
      = (if 50 < count then 5 else if 25 < count then 3 else 2) ∧
    getJobPriority "growth" (some t) count base
      = (if 50 < count then 5 else if 25 < count then 3 else 2) ∧
    getJobPriority "growthdouble" (some t) count base
      = (if 50 < count then 5 else if 25 < count then 3 else 2) ∧
    getJobPriority "standard" (some t) 20 base = 6 ∧
    getJobPriority "standard" (some t) 31 base = 8 := by
  refine ⟨?_, ?_, ?_, ?_, ?_, ?_, ?_, ?_, ?_, ?_, ?_, ?_⟩ <;>
    simp [getJobPriority, h₀, h₁]

theorem C7_priority_bands_witness :
    getJobPriority "standard" (some "t1") 20 10 = 6 ∧
    getJobPriority "standard" (some "t1") 31 10 = 8 ∧
    getJobPriority "free" (some "system") 100 10 = 1 := by
  have h := C7_priority_bands "t1" (by decide) (by decide) "free" 100 10
  exact ⟨h.2.2.2.2.2.2.2.2.2.2.1, h.2.2.2.2.2.2.2.2.2.2.2, h.1⟩

/-- Claim C8 (counterexample): for the free plan at the crawl fan-out base
priority of 20 (the worker passes `basePriority: 20` for crawl jobs), the
priority DROPS from 20 to 12 when the active-job count rises from 5 to 6, so
the returned integer is not non-decreasing in the count. -/
theorem C8_free_plan_not_monotone_at_base20 :
    getJobPriority "free" (some "t1") 5 20 = 20 ∧
    getJobPriority "free" (some "t1") 6 20 = 12 ∧
    ¬ (getJobPriority "free" (some "t1") 5 20 ≤ getJobPriority "free" (some "t1") 6 20) := by
  decide

/-- Claim C8 (amended): for every fixed plan and every fixed base priority of
at most 12 — which covers the default base priority of 10, but not the 20
used for crawl fan-out — `getJobPriority` is non-decreasing in the team's
active-job count. -/
theorem C8_priority_monotone (plan : String) (team_id : Option String)
    (base : Nat) (hbase : base ≤ 12) (j₁ j₂ : Nat) (hj : j₁ ≤ j₂) :
    getJobPriority plan team_id j₁ base ≤ getJobPriority plan team_id j₂ base := by
  simp only [getJobPriority]
  split_ifs <;> omega

theorem C8_priority_monotone_witness :
    (10 : Nat) ≤ 12 ∧ (3 : Nat) ≤ 7 ∧
    getJobPriority "free" (some "t1") 3 10 ≤ getJobPriority "free" (some "t1") 7 10 :=
  ⟨by decide, by decide,
   C8_priority_monotone "free" (some "t1") 10 (by decide) 3 7 (by decide)⟩

theorem takePrefixOf (n : Nat) (l : List Nat) : l.take n <+: l :=
  ⟨l.drop n, List.take_append_drop n l⟩

theorem dropLastPrefixOf (l : List Nat) : l.dropLast <+: l := by
  rw [List.dropLast_eq_take]
  exact ⟨l.drop (l.length - 1), List.take_append_drop _ l⟩

theorem prefix_cons_cons {a : Nat} {l₁ l₂ : List Nat} (h : l₁ <+: l₂) :
    a :: l₁ <+: a :: l₂ := by
  obtain ⟨t, ht⟩ := h
  exact ⟨t, by rw [List.cons_append, ht]⟩

theorem dropLast_append_ne_nil {l₁ l₂ : List Nat} (h : l₂ ≠ []) :
    (l₁ ++ l₂).dropLast = l₁ ++ l₂.dropLast := by
  induction l₁ with
  | nil => simp
  | cons a t ih =>
      have hne : t ++ l₂ ≠ [] := by
        intro hcon
        rcases List.append_eq_nil.mp hcon with ⟨-, h2⟩
        exact h h2
      rw [List.cons_append, List.dropLast_cons_of_ne_nil hne, ih, List.cons_append]

theorem pushChunk_acc (chunk : List Nat) (bytes : Nat) :
    (pushChunk chunk bytes).2 = bytes + (pushChunk chunk bytes).1.sum := by
  induction chunk generalizing bytes with
  | nil => simp [pushChunk]
  | cons sz rest ih =>
      by_cases h : bytes < bytesLimit
      · simp [pushChunk, h, ih (bytes + sz)]
        omega
      · simp [pushChunk, h]

theorem pushChunk_prefixOf (chunk : List Nat) (bytes : Nat) :
    (pushChunk chunk bytes).1 <+: chunk := by
  induction chunk generalizing bytes with
  | nil => simp [pushChunk]
  | cons sz rest ih =>
      by_cases h : bytes < bytesLimit
      · simp only [pushChunk, if_pos h]
        exact prefix_cons_cons (ih (bytes + sz))
      · simp [pushChunk, h]

theorem pushChunk_dropLast (chunk : List Nat) (bytes : Nat)
    (hne : (pushChunk chunk bytes).1 ≠ []) :
    bytes + (pushChunk chunk bytes).1.dropLast.sum < bytesLimit := by
  induction chunk generalizing bytes with
  | nil => simp [pushChunk] at hne
  | cons sz rest ih =>
      by_cases h : bytes < bytesLimit
      · simp only [pushChunk, if_pos h] at hne ⊢
        by_cases hr : (pushChunk rest (bytes + sz)).1 = []
        · simp [hr]
          omega
        · have := ih (bytes + sz) hr
          rw [List.dropLast_cons_of_ne_nil hr]
          simp
          omega
      · simp [pushChunk, h] at hne

theorem pushChunk_stop (chunk : List Nat) (bytes : Nat)
    (hne : (pushChunk chunk bytes).1 ≠ chunk) :
    bytesLimit ≤ (pushChunk chunk bytes).2 := by
  induction chunk generalizing bytes with
  | nil => simp [pushChunk] at hne
  | cons sz rest ih =>
      by_cases h : bytes < bytesLimit
      · simp only [pushChunk, if_pos h] at hne ⊢
        refine ih (bytes + sz) ?_
        intro he
        exact hne (by simp [he])
      · simp only [pushChunk, if_neg h]
        omega

theorem collectChunks_stopped (sizes : List Nat) (bytes : Nat)
    (h : ¬ bytes < bytesLimit) : collectChunks sizes bytes = ([], bytes) := by
  cases sizes with
  | nil => rw [collectChunks]
  | cons s rest' =>
      rw [collectChunks]
      simp [h]

theorem collectChunks_props (n : Nat) : ∀ (sizes : List Nat), sizes.length ≤ n →
    ∀ (bytes : Nat),
    (collectChunks sizes bytes).2 = bytes + (collectChunks sizes bytes).1.sum ∧
    ((collectChunks sizes bytes).1 ≠ [] →
      bytes + (collectChunks sizes bytes).1.dropLast.sum < bytesLimit) ∧
    (collectChunks sizes bytes).1 <+: sizes ∧
    ((collectChunks sizes bytes).1 = sizes ∨ bytesLimit ≤ (collectChunks sizes bytes).2) := by
  induction n with
  | zero =>
      intro sizes hlen bytes
      have hnil : sizes = [] := List.length_eq_zero.mp (Nat.le_zero.mp hlen)
      subst hnil
      simp [collectChunks]
  | succ m ihm =>
      intro sizes hlen bytes
      cases sizes with
      | nil => simp [collectChunks]
      | cons s rest' =>
          by_cases hb : bytes < bytesLimit
          · have hunf : collectChunks (s :: rest') bytes
                = ((pushChunk ((s :: rest').take factor) bytes).1
                    ++ (collectChunks ((s :: rest').drop factor)
                          (pushChunk ((s :: rest').take factor) bytes).2).1,
                   (collectChunks ((s :: rest').drop factor)
                      (pushChunk ((s :: rest').take factor) bytes).2).2) := by
              rw [collectChunks]
              simp [hb]
            have hdroplen : ((s :: rest').drop factor).length ≤ m := by
              simp only [List.length_drop, List.length_cons]
              simp only [List.length_cons] at hlen
              simp [factor]
              omega
            obtain ⟨ihacc, ihdrop, ihpre, ihstop⟩ :=
              ihm ((s :: rest').drop factor) hdroplen
                (pushChunk ((s :: rest').take factor) bytes).2
            have hpacc := pushChunk_acc ((s :: rest').take factor) bytes
            rw [hunf]
            refine ⟨?_, ?_, ?_, ?_⟩
            · simp only [List.sum_append]
              omega
            · intro hne
              by_cases hrest :
                  (collectChunks ((s :: rest').drop factor)
                    (pushChunk ((s :: rest').take factor) bytes).2).1 = []
              · rw [hrest, List.append_nil] at hne ⊢
                exact pushChunk_dropLast _ bytes hne
              · rw [dropLast_append_ne_nil hrest]
                have := ihdrop hrest
                simp only [List.sum_append]
                omega
            · by_cases hrt : (pushChunk ((s :: rest').take factor) bytes).1
                  = (s :: rest').take factor
              · obtain ⟨u, hu⟩ := ihpre
                refine ⟨u, ?_⟩
                rw [hrt, List.append_assoc, hu, List.take_append_drop]
              · have hstop := pushChunk_stop _ bytes hrt
                have hzero := collectChunks_stopped ((s :: rest').drop factor)
                  (pushChunk ((s :: rest').take factor) bytes).2 (by omega)
                rw [hzero]
                simp only [List.append_nil]
                exact (pushChunk_prefixOf _ bytes).trans (takePrefixOf _ _)
            · by_cases hrt : (pushChunk ((s :: rest').take factor) bytes).1
                  = (s :: rest').take factor
              · rcases ihstop with hall | hge
                · left
                  rw [hrt, hall, List.take_append_drop]
                · right
                  exact hge
              · have hstop := pushChunk_stop _ bytes hrt
                have hzero := collectChunks_stopped ((s :: rest').drop factor)
                  (pushChunk ((s :: rest').take factor) bytes).2 (by omega)
                rw [hzero]
                right
                exact hstop
          · rw [collectChunks_stopped _ _ hb]
            simp
            omega

/-- Claim C9: with no explicit end index, the reader accumulates
completed-job results in chunks of 100, stopping once the cumulative
serialized size first reaches the 10 MiB budget (the loop exits only at the
end of the input or with the counter at or over the budget), and discards the
last appended element if the total ran strictly over — so the returned
payload is a prefix of the completed-job list whose total serialized size
never exceeds the budget. -/
theorem C9_byte_budget_read (sizes : List Nat) :
    (selectDoneJobs sizes).sum ≤ bytesLimit ∧
    selectDoneJobs sizes <+: sizes ∧
    ((collectChunks sizes 0).1 = sizes ∨ bytesLimit ≤ (collectChunks sizes 0).2) := by
  obtain ⟨hacc, hdrop, hpre, hstop⟩ :=
    collectChunks_props sizes.length sizes (le_refl _) 0
  simp only [Nat.zero_add] at hacc
  refine ⟨?_, ?_, hstop⟩
  · unfold selectDoneJobs
    by_cases hover : bytesLimit < (collectChunks sizes 0).2
    · simp only [if_pos hover]
      have hne : (collectChunks sizes 0).1 ≠ [] := by
        intro hcon
        rw [hcon] at hacc
        simp at hacc
        omega
      have := hdrop hne
      omega
    · simp only [if_neg hover]
      omega
  · unfold selectDoneJobs
    by_cases hover : bytesLimit < (collectChunks sizes 0).2
    · simp only [if_pos hover]
      exact (dropLastPrefixOf _).trans hpre
    · simp only [if_neg hover]
      exact hpre

end Firecrawl
